import Mathlib

/-!
Shallow embedding of the `module-impi` iso-surface extraction module.

Scalars (`float` in the source) are modelled as `ℚ`; machine pointers and
parameter dictionaries become explicit `Option`-valued records; the fatal
outcomes of the C++ code (null-pointer dereference on a missing parameter,
call through a null downcast) become `Except` errors.

Embedded source files:
  * `src/ospray/geometry/Impi.cpp` — orchestrator `Impi::commit`,
    `Impi::finalize`, `Impi::initVoxelSourceAndIsoValue`, and the
    C-callback resolvers that forward to the voxel source.
  * `src/unnamed/part_000` (TestOctant header) — the `Octant` record and
    the `TestOctant` voxel-source declarations.  The member function
    bodies (`getActiveVoxels`, `getVoxelBounds`, `getVoxel`, `initData`)
    are not in the repository snapshot; they are modelled from the spec,
    as marked on each definition.
  * `src/apps/impiViewer.cpp` — the scene-graph node `ImpiSGNode` and its
    constant `bounds()` override.
-/

namespace ImpiSpec

/-- Component-wise 3-vector of scalars (`vec3f` in the source). -/
structure Vec3 where
  x : ℚ
  y : ℚ
  z : ℚ
deriving DecidableEq, Repr

/-- Axis-aligned box (`box3f` / `box3fa` in the source). -/
structure Box3 where
  lower : Vec3
  upper : Vec3
deriving DecidableEq, Repr

/-- `Octant` from the TestOctant header: a bounds box, a scalar cell width,
and the `float vertexValue[2][2][2]` corner array, modelled as a function
from the 3-bit corner code (corner index = x + 2y + 4z) to the scalar. -/
structure Octant where
  bounds : Box3
  width : ℚ
  vertexValue : Fin 8 → ℚ

instance : Inhabited Octant :=
  ⟨{ bounds := { lower := ⟨0, 0, 0⟩, upper := ⟨0, 0, 0⟩ }, width := 0,
     vertexValue := fun _ => 0 }⟩

/-- `Impi::Voxel`: self-contained cell description, bounds plus the
8-element corner-value array. -/
structure Voxel where
  bounds : Box3
  vtx : Fin 8 → ℚ

/-- Minimum of the 8 corner values of a cell. -/
def cornerMin (v : Fin 8 → ℚ) : ℚ :=
  ((List.finRange 8).map v).foldl min (v 0)

/-- Maximum of the 8 corner values of a cell. -/
def cornerMax (v : Fin 8 → ℚ) : ℚ :=
  ((List.finRange 8).map v).foldl max (v 0)

/-- Modelled from the spec: the per-cell iso test used by enumeration.
`TestOctant::getActiveVoxels` has no body under `src/`; the spec contract
is that enumeration "must include every cell whose corner-value range
[min(corners), max(corners)] contains isoValue" and, for the octant
source, "each entry tested independently for the iso-range condition". -/
def octantActive (o : Octant) (iso : ℚ) : Bool :=
  decide (cornerMin o.vertexValue ≤ iso ∧ iso ≤ cornerMax o.vertexValue)

/-- Helper for enumeration: flat indices (starting at `i`) of the cells in
`octs` whose range contains `iso`. -/
def activeFrom (iso : ℚ) : Nat → List Octant → List Nat
  | _, [] => []
  | i, o :: rest =>
      if octantActive o iso then i :: activeFrom iso (i + 1) rest
      else activeFrom iso (i + 1) rest

/-- Modelled from the spec: `TestOctant::getActiveVoxels` (body not under
`src/`): "Enumeration is a single linear pass over the octant sequence,
each entry tested independently for the iso-range condition"; a `VoxelRef`
"encodes an index into this sequence directly (flat index)". -/
def getActiveVoxels (octs : List Octant) (iso : ℚ) : List Nat :=
  activeFrom iso 0 octs

/-- Modelled from the spec: `TestOctant::getVoxelBounds` (body not under
`src/`): "pure decode of the reference plus table lookup". -/
def getVoxelBounds (octs : List Octant) (ref : Nat) : Box3 :=
  (octs.getD ref default).bounds

/-- Modelled from the spec: `TestOctant::getVoxel` (body not under
`src/`): "must return bounds and all 8 corner values". -/
def getVoxel (octs : List Octant) (ref : Nat) : Voxel :=
  { bounds := (octs.getD ref default).bounds
    vtx := (octs.getD ref default).vertexValue }

/-- State-passing form of `getVoxel`.  The C++ declaration is a `const`
member function, so the embedding threads the octant table through the
call and returns it unchanged, making the absence of mutation explicit. -/
def getVoxelS (octs : List Octant) (ref : Nat) : Voxel × List Octant :=
  (getVoxel octs ref, octs)

/-- The concrete `VoxelSource` variants named in `Impi.cpp` (TestVoxel,
TestOctant, TestAMR, StructuredVolumeSource, SegmentedVolumeSource).  Per
the spec every variant presents an ordered sequence of leaf cells to the
shared four-operation interface; only `TestOctant` has any code in the
snapshot, so the other variants carry their (spec-level) cell list
opaquely. -/
inductive VoxelSource where
  | testVoxel (cells : List Octant)
  | testOctant (octants : List Octant)
  | testAMR (cells : List Octant)
  | structured (cells : List Octant)
  | segmented (cells : List Octant)

/-- The leaf-cell sequence a source exposes to the shared interface. -/
def VoxelSource.cells : VoxelSource → List Octant
  | .testVoxel c => c
  | .testOctant c => c
  | .testAMR c => c
  | .structured c => c
  | .segmented c => c

/-- Dispatch of `getActiveVoxels` through the `VoxelSource` interface
(the virtual call `voxelSource->getActiveVoxels(...)` in `Impi.cpp`). -/
def sourceActiveVoxels (vs : VoxelSource) (iso : ℚ) : List Nat :=
  getActiveVoxels vs.cells iso

/-- Dispatch of `getVoxelBounds` through the interface: the resolver
callback in `Impi.cpp` that forwards
`self->voxelSource->getVoxelBounds(voxelRef)`. -/
def sourceVoxelBounds (vs : VoxelSource) (ref : Nat) : Box3 :=
  getVoxelBounds vs.cells ref

/-- Dispatch of `getVoxel` through the interface: the resolver callback in
`Impi.cpp` that forwards `self->voxelSource->getVoxel(voxelRef)`. -/
def sourceGetVoxel (vs : VoxelSource) (ref : Nat) : Voxel :=
  getVoxel vs.cells ref

/-- The compile-time data-source selection in
`Impi::initVoxelSourceAndIsoValue` (the preprocessor `#if`/`#elif`
chain). -/
inductive VariantSel where
  | testVoxel
  | testOctant
  | testAMR
  | structuredTest
  | structuredFile
  | segmented
deriving DecidableEq, Repr

/-- The branch of `Impi::initVoxelSourceAndIsoValue` selected for each
preprocessor choice: the iso-value it assigns and the source it
constructs.  Non-octant branches build their data from volumes or files
whose code is not in the snapshot; their cell lists are modelled empty
(the claims about them depend only on the constructed variant). -/
def initVoxelSourceAndIsoValueSel : VariantSel → ℚ × VoxelSource
  | .testVoxel => (20, .testVoxel [])
  | .testOctant => (7 / 10, .testOctant [])
  | .testAMR => (16 / 5, .testAMR [])
  | .structuredTest => (1 / 2, .structured [])
  | .structuredFile => (1, .structured [])
  | .segmented => (20, .segmented [])

/-- The branch actually compiled in the source (`#elif 1`: the TestOctant
branch). -/
def compiledVariant : VariantSel := .testOctant

/-- Parameter set the orchestrator reads (`getParamData` /
`getParam1f`); an absent parameter is `none` (a null `Data` pointer /
the default in the C++ API). -/
structure Params where
  octantWidthArray : Option (List ℚ)
  octantPointArray : Option (List Vec3)
  octantValueArray : Option (List ℚ)
  isoValue : Option ℚ

/-- The orchestrator's state (`Impi` members used by the embedded code). -/
structure ImpiState where
  voxelSource : Option VoxelSource
  isoValue : ℚ
  activeVoxelRefs : List Nat

/-- `Impi::initVoxelSourceAndIsoValue` as compiled: assigns the selected
branch's iso-value and freshly constructed source. -/
def initVoxelSourceAndIsoValue (st : ImpiState) : ImpiState :=
  { st with
    isoValue := (initVoxelSourceAndIsoValueSel compiledVariant).1
    voxelSource := some (initVoxelSourceAndIsoValueSel compiledVariant).2 }

/-- `std::dynamic_pointer_cast<testCase::TestOctant>(voxelSource)`:
yields the octant payload when the source is a `TestOctant`, and the null
pointer (`none`) for a null source or any other concrete variant. -/
def dynCastTestOctant : Option VoxelSource → Option (List Octant)
  | some (.testOctant octs) => some octs
  | _ => none

/-- Fatal outcomes of `Impi::commit`: dereferencing the null `Data`
pointer of an absent octant parameter, or calling `initData` through a
null downcast. -/
inductive CommitError where
  | missingOctantWidthArray
  | missingOctantPointArray
  | missingOctantValueArray
  | nullSourceCast
deriving DecidableEq, Repr

/-- C truncation of a scalar to `int`: `(int)octWDataf[0]` rounds toward
zero. -/
def truncInt (q : ℚ) : ℤ :=
  if q < 0 then ⌈q⌉ else ⌊q⌋

/-- One octant record built from the parallel arrays: lower corner,
cubic extent of edge length `w`, and 8 corner values. -/
def mkOctant (lower : Vec3) (w : ℚ) (corners : Fin 8 → ℚ) : Octant :=
  { bounds :=
      { lower := lower
        upper := { x := lower.x + w, y := lower.y + w, z := lower.z + w } }
    width := w
    vertexValue := corners }

/-- Modelled from the spec: `TestOctant::initData` (body not under
`src/`): "Initialization parses three externally supplied parallel
arrays: a per-octant width list, a per-octant lower-corner position list,
and a flattened per-octant 8-corner value list, producing one Octant
record per entry in lock-step."  Octant `i` takes position `points[i]`,
width `widths[i]`, and corners `values[8*i .. 8*i+7]`. -/
def initData (octNum : ℤ) (points : List Vec3) (widths : List ℚ)
    (values : List ℚ) : List Octant :=
  (List.range octNum.toNat).map fun i =>
    mkOctant (points.getD i ⟨0, 0, 0⟩) (widths.getD i 0)
      (fun j => values.getD (8 * i + j.val) 0)

/-- `Impi::commit`.  First commit (null `voxelSource`): construct the
source via `initVoxelSourceAndIsoValue`, read the three octant parameter
arrays (`octNum` is the width array's first element cast to `int`, the
widths proper start at its second element), downcast the source to
`TestOctant` and hand the arrays to `initData` in lock-step.  Every
commit then assigns `isoValue = getParam1f("isoValue", 0.7f)`. -/
def commit (st : ImpiState) (p : Params) : Except CommitError ImpiState :=
  match st.voxelSource with
  | some _ => .ok { st with isoValue := p.isoValue.getD (7 / 10) }
  | none =>
      let st1 := initVoxelSourceAndIsoValue st
      match p.octantWidthArray with
      | none => .error CommitError.missingOctantWidthArray
      | some ws =>
          match p.octantPointArray with
          | none => .error CommitError.missingOctantPointArray
          | some pts =>
              match p.octantValueArray with
              | none => .error CommitError.missingOctantValueArray
              | some vals =>
                  let octNum : ℤ := truncInt (ws.headD 0)
                  let octW : List ℚ := ws.drop 1
                  match dynCastTestOctant st1.voxelSource with
                  | none => .error CommitError.nullSourceCast
                  | some _ =>
                      let st2 := { st1 with
                        voxelSource :=
                          some (VoxelSource.testOctant
                            (initData octNum pts octW vals)) }
                      .ok { st2 with isoValue := p.isoValue.getD (7 / 10) }

/-- `Impi::finalize`: recompute the active-voxel list from the source at
the current iso-value and hand it to the intersection builder.  A null
source would be a null dereference (`none`). -/
def finalize (st : ImpiState) : Option ImpiState :=
  match st.voxelSource with
  | none => none
  | some vs =>
      some { st with activeVoxelRefs := sourceActiveVoxels vs st.isoValue }

/-- The viewer's scene-graph node for the impi geometry
(`impiViewer.cpp`), with the state a node carries that could in
principle influence its bounds. -/
structure ImpiSGNode where
  isoValueChild : ℚ
  dataSource : Option VoxelSource
  committed : Bool

/-- `ImpiSGNode::bounds`: returns `box3f(vec3f(0), vec3f(1))`
unconditionally. -/
def ImpiSGNode.bounds (_n : ImpiSGNode) : Box3 :=
  { lower := ⟨0, 0, 0⟩, upper := ⟨1, 1, 1⟩ }

/-! ### Helper lemmas -/

theorem foldl_max_lt (iso : ℚ) (l : List ℚ) (a : ℚ) (ha : a < iso)
    (hl : ∀ x ∈ l, x < iso) : l.foldl max a < iso := by
  induction l generalizing a with
  | nil => simpa using ha
  | cons x xs ih =>
      simp only [List.foldl_cons]
      exact ih (max a x) (max_lt ha (hl x (List.mem_cons_self x xs)))
        (fun y hy => hl y (List.mem_cons_of_mem x hy))

theorem lt_foldl_min (iso : ℚ) (l : List ℚ) (a : ℚ) (ha : iso < a)
    (hl : ∀ x ∈ l, iso < x) : iso < l.foldl min a := by
  induction l generalizing a with
  | nil => simpa using ha
  | cons x xs ih =>
      simp only [List.foldl_cons]
      exact ih (min a x) (lt_min ha (hl x (List.mem_cons_self x xs)))
        (fun y hy => hl y (List.mem_cons_of_mem x hy))

theorem cornerMax_lt (v : Fin 8 → ℚ) (iso : ℚ) (h : ∀ j, v j < iso) :
    cornerMax v < iso := by
  unfold cornerMax
  refine foldl_max_lt iso _ (v 0) (h 0) ?_
  intro x hx
  rcases List.mem_map.mp hx with ⟨j, _, rfl⟩
  exact h j

theorem lt_cornerMin (v : Fin 8 → ℚ) (iso : ℚ) (h : ∀ j, iso < v j) :
    iso < cornerMin v := by
  unfold cornerMin
  refine lt_foldl_min iso _ (v 0) (h 0) ?_
  intro x hx
  rcases List.mem_map.mp hx with ⟨j, _, rfl⟩
  exact h j

theorem octantActive_false_of_high (o : Octant) (iso : ℚ)
    (h : ∀ j, o.vertexValue j < iso) : octantActive o iso = false := by
  unfold octantActive
  simp only [decide_eq_false_iff_not]
  rintro ⟨-, h2⟩
  exact absurd h2 (not_le.mpr (cornerMax_lt o.vertexValue iso h))

theorem octantActive_false_of_low (o : Octant) (iso : ℚ)
    (h : ∀ j, iso < o.vertexValue j) : octantActive o iso = false := by
  unfold octantActive
  simp only [decide_eq_false_iff_not]
  rintro ⟨h1, -⟩
  exact absurd h1 (not_le.mpr (lt_cornerMin o.vertexValue iso h))

theorem activeFrom_eq_nil (iso : ℚ) (octs : List Octant)
    (h : ∀ o ∈ octs, octantActive o iso = false) :
    ∀ k, activeFrom iso k octs = [] := by
  induction octs with
  | nil => intro k; rfl
  | cons o rest ih =>
      intro k
      have ho : octantActive o iso = false := h o (List.mem_cons_self o rest)
      simp only [activeFrom, ho, Bool.false_eq_true, if_false]
      exact ih (fun o2 h2 => h o2 (List.mem_cons_of_mem o h2)) (k + 1)

theorem mem_activeFrom (iso : ℚ) (octs : List Octant) : ∀ (k j : Nat),
    (j ∈ activeFrom iso k octs ↔
      ∃ m o, octs.get? m = some o ∧ j = k + m ∧ octantActive o iso = true) := by
  induction octs with
  | nil =>
      intro k j
      simp [activeFrom]
  | cons o rest ih =>
      intro k j
      by_cases ha : octantActive o iso = true
      · simp only [activeFrom, ha, if_true, List.mem_cons]
        constructor
        · rintro (rfl | hj)
          · exact ⟨0, o, List.get?_cons_zero, by omega, ha⟩
          · rcases (ih (k + 1) j).mp hj with ⟨m, o2, hm, rfl, h2⟩
            exact ⟨m + 1, o2, by simpa using hm, by omega, h2⟩
        · rintro ⟨m, o2, hm, rfl, h2⟩
          cases m with
          | zero =>
              left
              simp
          | succ m2 =>
              right
              refine (ih (k + 1) _).mpr ⟨m2, o2, by simpa using hm, by omega, h2⟩
      · have ha2 : octantActive o iso = false := by
          cases hb : octantActive o iso
          · rfl
          · exact absurd hb ha
        simp only [activeFrom, ha2, Bool.false_eq_true, if_false]
        rw [ih (k + 1) j]
        constructor
        · rintro ⟨m, o2, hm, rfl, h2⟩
          exact ⟨m + 1, o2, by simpa using hm, by omega, h2⟩
        · rintro ⟨m, o2, hm, rfl, h2⟩
          cases m with
          | zero =>
              rw [List.get?_cons_zero] at hm
              cases hm
              exact absurd h2 ha
          | succ m2 =>
              exact ⟨m2, o2, by simpa using hm, by omega, h2⟩

theorem mem_getActiveVoxels (iso : ℚ) (octs : List Octant) (j : Nat) :
    j ∈ getActiveVoxels octs iso ↔
      ∃ o, octs.get? j = some o ∧ octantActive o iso = true := by
  unfold getActiveVoxels
  rw [mem_activeFrom]
  constructor
  · rintro ⟨m, o, hm, rfl, h2⟩
    exact ⟨o, by simpa using hm, h2⟩
  · rintro ⟨o, hj, h2⟩
    exact ⟨j, o, hj, (Nat.zero_add j).symm, h2⟩

/-! ### Concrete data used by witnesses -/

/-- A single octant cell with corner values 0 (low corners) and 2 (high
corners). -/
def octantEx : Octant :=
  mkOctant ⟨0, 0, 0⟩ 2 (fun j => if j.val < 4 then 0 else 2)

/-- A TestOctant source holding `octantEx`. -/
def sourceEx : VoxelSource := .testOctant [octantEx]

/-- A full parameter set: two octants, widths preceded by the count. -/
def paramsEx : Params :=
  { octantWidthArray := some [2, 1, 1]
    octantPointArray := some [⟨0, 0, 0⟩, ⟨1, 0, 0⟩]
    octantValueArray := some ((List.range 16).map fun n => (n : ℚ))
    isoValue := some 1 }

/-- A parameter set with all octant arrays absent. -/
def paramsNone : Params :=
  { octantWidthArray := none
    octantPointArray := none
    octantValueArray := none
    isoValue := some 1 }

/-- An uncommitted orchestrator state. -/
def stEmpty : ImpiState :=
  { voxelSource := none, isoValue := 0, activeVoxelRefs := [] }

/-- A committed orchestrator state holding `sourceEx`, with a stale
active list from an earlier enumeration. -/
def stCommitted : ImpiState :=
  { voxelSource := some sourceEx, isoValue := 1, activeVoxelRefs := [7] }

/-! ### Claims -/

/-- C1: for every source variant, `getActiveVoxels(iso)` returns the
empty sequence whenever `iso` is strictly above the global maximum corner
value of the stored data (every corner value is `< iso`) or strictly
below the global minimum (every corner value is `> iso`); an out-of-range
iso-value is not an error. -/
theorem getActiveVoxels_empty_outside_range (vs : VoxelSource) (iso : ℚ)
    (h : (∀ o ∈ vs.cells, ∀ j : Fin 8, o.vertexValue j < iso) ∨
         (∀ o ∈ vs.cells, ∀ j : Fin 8, iso < o.vertexValue j)) :
    sourceActiveVoxels vs iso = [] := by
  unfold sourceActiveVoxels getActiveVoxels
  apply activeFrom_eq_nil
  intro o ho
  rcases h with h | h
  · exact octantActive_false_of_high o iso (fun j => h o ho j)
  · exact octantActive_false_of_low o iso (fun j => h o ho j)

/-- Witness for C1: a source whose corner values all lie below `iso = 5`
yields an empty active list. -/
theorem getActiveVoxels_empty_outside_range_witness :
    (∀ o ∈ sourceEx.cells, ∀ j : Fin 8, o.vertexValue j < 5) ∧
      sourceActiveVoxels sourceEx 5 = [] :=
  ⟨by decide,
   getActiveVoxels_empty_outside_range sourceEx 5 (Or.inl (by decide))⟩

/-- C2: if a required octant parameter array is absent at the first
commit (null `voxelSource`), commit fails fatally (the null `Data`
dereference in the source) rather than proceeding or silently
returning. -/
theorem commit_missing_octant_array_fatal (st : ImpiState) (p : Params)
    (h0 : st.voxelSource = none)
    (h : p.octantWidthArray = none ∨ p.octantPointArray = none ∨
         p.octantValueArray = none) :
    ∃ e, commit st p = .error e := by
  unfold commit
  rw [h0]
  rcases hw : p.octantWidthArray with _ | ws
  · exact ⟨CommitError.missingOctantWidthArray, rfl⟩
  · rcases hp : p.octantPointArray with _ | pts
    · exact ⟨CommitError.missingOctantPointArray, rfl⟩
    · rcases hv : p.octantValueArray with _ | vals
      · exact ⟨CommitError.missingOctantValueArray, rfl⟩
      · rcases h with h | h | h <;> simp_all

/-- Witness for C2: a first commit with all octant arrays absent
errors. -/
theorem commit_missing_octant_array_fatal_witness :
    stEmpty.voxelSource = none ∧ paramsNone.octantWidthArray = none ∧
      ∃ e, commit stEmpty paramsNone = .error e :=
  ⟨rfl, rfl,
   commit_missing_octant_array_fatal stEmpty paramsNone rfl (Or.inl rfl)⟩

/-- C3: once the first commit has constructed the voxel source, every
subsequent commit leaves `voxelSource` (and the active list) unchanged
and only refreshes `isoValue` from the parameters. -/
theorem commit_after_first_only_refreshes_iso (st : ImpiState) (p : Params)
    (vs : VoxelSource) (h : st.voxelSource = some vs) :
    ∃ st2, commit st p = .ok st2 ∧
      st2.voxelSource = some vs ∧
      st2.isoValue = p.isoValue.getD (7 / 10) ∧
      st2.activeVoxelRefs = st.activeVoxelRefs := by
  refine ⟨{ st with isoValue := p.isoValue.getD (7 / 10) }, ?_, h, rfl, rfl⟩
  unfold commit
  rw [h]

/-- Witness for C3: a subsequent commit on a committed state keeps the
source and updates only the iso-value. -/
theorem commit_after_first_only_refreshes_iso_witness :
    stCommitted.voxelSource = some sourceEx ∧
      ∃ st2, commit stCommitted paramsEx = .ok st2 ∧
        st2.voxelSource = some sourceEx ∧
        st2.isoValue = paramsEx.isoValue.getD (7 / 10) ∧
        st2.activeVoxelRefs = stCommitted.activeVoxelRefs :=
  ⟨rfl, commit_after_first_only_refreshes_iso stCommitted paramsEx sourceEx rfl⟩

/-- C4: each `finalize` call recomputes the active-voxel list afresh from
the source at the current iso-value: the resulting list equals the
enumeration of the current source and iso-value — membership is exactly
"the referenced cell's corner range contains the iso-value" — with no
dependence on the previously stored list. -/
theorem finalize_recomputes_active_list (st : ImpiState) (vs : VoxelSource)
    (h : st.voxelSource = some vs) :
    ∃ st2, finalize st = some st2 ∧
      st2.activeVoxelRefs = sourceActiveVoxels vs st.isoValue ∧
      ∀ r, r ∈ st2.activeVoxelRefs ↔
        ∃ o, vs.cells.get? r = some o ∧ octantActive o st.isoValue = true := by
  refine ⟨{ st with activeVoxelRefs := sourceActiveVoxels vs st.isoValue },
    ?_, rfl, ?_⟩
  · unfold finalize
    rw [h]
  · intro r
    exact mem_getActiveVoxels st.isoValue vs.cells r

/-- Witness for C4: finalizing a committed state whose stale active list
is `[7]` replaces it with the fresh enumeration `[0]`. -/
theorem finalize_recomputes_active_list_witness :
    stCommitted.voxelSource = some sourceEx ∧
      ∃ st2, finalize stCommitted = some st2 ∧
        st2.activeVoxelRefs = sourceActiveVoxels sourceEx stCommitted.isoValue ∧
        ∀ r, r ∈ st2.activeVoxelRefs ↔
          ∃ o, sourceEx.cells.get? r = some o ∧
            octantActive o stCommitted.isoValue = true :=
  ⟨rfl, finalize_recomputes_active_list stCommitted sourceEx rfl⟩

/-- C6: for every `VoxelRef` returned by enumeration, the box returned by
`getVoxelBounds` equals the `bounds` field of the `Voxel` returned by
`getVoxel`, through the same resolver dispatch the intersection builder
uses. -/
theorem voxelBounds_eq_voxel_bounds (vs : VoxelSource) (iso : ℚ) (ref : Nat)
    (_h : ref ∈ sourceActiveVoxels vs iso) :
    sourceVoxelBounds vs ref = (sourceGetVoxel vs ref).bounds := rfl

/-- Witness for C6: reference 0 is enumerated by `sourceEx` at iso 1 and
its two bounds queries agree. -/
theorem voxelBounds_eq_voxel_bounds_witness :
    0 ∈ sourceActiveVoxels sourceEx 1 ∧
      sourceVoxelBounds sourceEx 0 = (sourceGetVoxel sourceEx 0).bounds :=
  ⟨by decide, voxelBounds_eq_voxel_bounds sourceEx 1 0 (by decide)⟩

/-- C7: `getVoxel` is a deterministic pure decode of immutable state: two
calls with the same reference and no re-initialization in between return
identical `Voxel` values, and the source data is unchanged by the
lookup. -/
theorem getVoxel_deterministic (octs : List Octant) (ref : Nat) :
    (getVoxelS octs ref).1 = (getVoxelS (getVoxelS octs ref).2 ref).1 ∧
      (getVoxelS octs ref).2 = octs :=
  ⟨rfl, rfl⟩

/-- C8: every successful commit (first or subsequent) sets `isoValue` to
the `isoValue` parameter when supplied and to the default `0.7` when
absent. -/
theorem commit_sets_isoValue (st : ImpiState) (p : Params) (st2 : ImpiState)
    (h : commit st p = .ok st2) :
    st2.isoValue = p.isoValue.getD (7 / 10) ∧
      (∀ v, p.isoValue = some v → st2.isoValue = v) ∧
      (p.isoValue = none → st2.isoValue = 7 / 10) := by
  have h1 : st2.isoValue = p.isoValue.getD (7 / 10) := by
    unfold commit at h
    rcases hs : st.voxelSource with _ | vs <;> rw [hs] at h
    · rcases hw : p.octantWidthArray with _ | ws <;> rw [hw] at h
      · cases h
      · rcases hp : p.octantPointArray with _ | pts <;> rw [hp] at h
        · cases h
        · rcases hv : p.octantValueArray with _ | vals <;> rw [hv] at h
          · cases h
          · simp only [initVoxelSourceAndIsoValue, compiledVariant,
              initVoxelSourceAndIsoValueSel, dynCastTestOctant] at h
            cases h
            rfl
    · cases h
      rfl
  refine ⟨h1, ?_, ?_⟩
  · intro v hv
    rw [h1, hv]
    rfl
  · intro hv
    rw [h1, hv]
    rfl

/-- Witness for C8: committing with an explicit iso-value parameter of 1
stores 1. -/
theorem commit_sets_isoValue_witness :
    commit stCommitted paramsEx = .ok { stCommitted with isoValue := 1 } ∧
      ({ stCommitted with isoValue := 1 } : ImpiState).isoValue =
          paramsEx.isoValue.getD (7 / 10) ∧
        (∀ v, paramsEx.isoValue = some v →
          ({ stCommitted with isoValue := 1 } : ImpiState).isoValue = v) ∧
        (paramsEx.isoValue = none →
          ({ stCommitted with isoValue := 1 } : ImpiState).isoValue = 7 / 10) :=
  ⟨rfl, commit_sets_isoValue stCommitted paramsEx _ rfl⟩

/-- C9: the scene-graph node's aggregate bounds are the fixed unit cube
`[0,1]^3`, independent of the node's data source, iso-value, or commit
state. -/
theorem impiSGNode_bounds_unit_cube (n : ImpiSGNode) :
    n.bounds = { lower := ⟨0, 0, 0⟩, upper := ⟨1, 1, 1⟩ } ∧
      ∀ n2 : ImpiSGNode, n.bounds = n2.bounds :=
  ⟨rfl, fun _ => rfl⟩

/-- C5: on the first commit the octant parameters are parsed as three
parallel arrays: the octant count is the width array's first element
truncated to an integer, the per-octant widths start at that array's
second element, and the point and value buffers are consumed in
lock-step with the widths, one octant record per entry. -/
theorem commit_parses_octant_arrays (st : ImpiState) (p : Params)
    (ws : List ℚ) (pts : List Vec3) (vals : List ℚ)
    (h0 : st.voxelSource = none)
    (hw : p.octantWidthArray = some ws)
    (hp : p.octantPointArray = some pts)
    (hv : p.octantValueArray = some vals) :
    ∃ octs, commit st p = .ok
        { voxelSource := some (VoxelSource.testOctant octs)
          isoValue := p.isoValue.getD (7 / 10)
          activeVoxelRefs := st.activeVoxelRefs } ∧
      octs = initData (truncInt (ws.headD 0)) pts (ws.drop 1) vals ∧
      octs.length = (truncInt (ws.headD 0)).toNat ∧
      ∀ i, i < octs.length → octs.get? i = some
        (mkOctant (pts.getD i ⟨0, 0, 0⟩) ((ws.drop 1).getD i 0)
          (fun j => vals.getD (8 * i + j.val) 0)) := by
  refine ⟨initData (truncInt (ws.headD 0)) pts (ws.drop 1) vals,
    ?_, rfl, ?_, ?_⟩
  · unfold commit
    rw [h0, hw, hp, hv]
    simp only [initVoxelSourceAndIsoValue, compiledVariant,
      initVoxelSourceAndIsoValueSel, dynCastTestOctant]
  · simp [initData]
  · intro i hi
    have hi2 : i < (truncInt (ws.headD 0)).toNat := by
      simpa [initData] using hi
    unfold initData
    rw [List.get?_map, List.get?_range hi2]
    rfl

/-- Witness for C5: a concrete first commit over a width array `[2,1,1]`
(count 2, widths `[1,1]`), two points and 16 values. -/
theorem commit_parses_octant_arrays_witness :
    stEmpty.voxelSource = none ∧
      ∃ octs, commit stEmpty paramsEx = .ok
          { voxelSource := some (VoxelSource.testOctant octs)
            isoValue := paramsEx.isoValue.getD (7 / 10)
            activeVoxelRefs := stEmpty.activeVoxelRefs } ∧
        octs = initData (truncInt (([2, 1, 1] : List ℚ).headD 0))
          [⟨0, 0, 0⟩, ⟨1, 0, 0⟩] (([2, 1, 1] : List ℚ).drop 1)
          ((List.range 16).map fun n => (n : ℚ)) ∧
        octs.length = (truncInt (([2, 1, 1] : List ℚ).headD 0)).toNat ∧
        ∀ i, i < octs.length → octs.get? i = some
          (mkOctant (([⟨0, 0, 0⟩, ⟨1, 0, 0⟩] : List Vec3).getD i ⟨0, 0, 0⟩)
            ((([2, 1, 1] : List ℚ).drop 1).getD i 0)
            (fun j => ((List.range 16).map fun n => (n : ℚ)).getD
              (8 * i + j.val) 0)) :=
  ⟨rfl, commit_parses_octant_arrays stEmpty paramsEx [2, 1, 1]
    [⟨0, 0, 0⟩, ⟨1, 0, 0⟩] ((List.range 16).map fun n => (n : ℚ))
    rfl rfl rfl rfl⟩

/-- C10: the octant-initialization branch of the first commit is safe
because the compiled `initVoxelSourceAndIsoValue` branch always
constructs a `TestOctant`: the downcast of the freshly constructed
source succeeds and `initData`'s result is installed; for every other
variant selection the unchecked downcast would yield the null pointer. -/
theorem commit_octant_cast_safe (st : ImpiState) (p : Params)
    (ws : List ℚ) (pts : List Vec3) (vals : List ℚ)
    (h0 : st.voxelSource = none)
    (hw : p.octantWidthArray = some ws)
    (hp : p.octantPointArray = some pts)
    (hv : p.octantValueArray = some vals) :
    compiledVariant = VariantSel.testOctant ∧
      dynCastTestOctant (initVoxelSourceAndIsoValue st).voxelSource ≠ none ∧
      commit st p = .ok
        { voxelSource := some (VoxelSource.testOctant
            (initData (truncInt (ws.headD 0)) pts (ws.drop 1) vals))
          isoValue := p.isoValue.getD (7 / 10)
          activeVoxelRefs := st.activeVoxelRefs } ∧
      ∀ sel : VariantSel, sel ≠ VariantSel.testOctant →
        dynCastTestOctant (some (initVoxelSourceAndIsoValueSel sel).2) =
          none := by
  refine ⟨rfl, ?_, ?_, ?_⟩
  · simp [initVoxelSourceAndIsoValue, compiledVariant,
      initVoxelSourceAndIsoValueSel, dynCastTestOctant]
  · unfold commit
    rw [h0, hw, hp, hv]
    simp only [initVoxelSourceAndIsoValue, compiledVariant,
      initVoxelSourceAndIsoValueSel, dynCastTestOctant]
  · intro sel hsel
    cases sel <;> first | rfl | exact absurd rfl hsel

/-- Witness for C10: the downcast succeeds and the commit completes on a
concrete uncommitted state and full parameter set. -/
theorem commit_octant_cast_safe_witness :
    stEmpty.voxelSource = none ∧
      (compiledVariant = VariantSel.testOctant ∧
        dynCastTestOctant (initVoxelSourceAndIsoValue stEmpty).voxelSource ≠
          none ∧
        commit stEmpty paramsEx = .ok
          { voxelSource := some (VoxelSource.testOctant
              (initData (truncInt (([2, 1, 1] : List ℚ).headD 0))
                [⟨0, 0, 0⟩, ⟨1, 0, 0⟩] (([2, 1, 1] : List ℚ).drop 1)
                ((List.range 16).map fun n => (n : ℚ))))
            isoValue := paramsEx.isoValue.getD (7 / 10)
            activeVoxelRefs := stEmpty.activeVoxelRefs } ∧
        ∀ sel : VariantSel, sel ≠ VariantSel.testOctant →
          dynCastTestOctant (some (initVoxelSourceAndIsoValueSel sel).2) =
            none) :=
  ⟨rfl, commit_octant_cast_safe stEmpty paramsEx [2, 1, 1]
    [⟨0, 0, 0⟩, ⟨1, 0, 0⟩] ((List.range 16).map fun n => (n : ℚ))
    rfl rfl rfl rfl⟩

end ImpiSpec
